import Mathlib

/-!
Shallow embedding of the ccbot verification Authority (src/main.rs) and the
TCP wire-codec buffer (src/tcp.rs).

The Authority (main.rs, `main`, lines 54-224) serially drains an ingress
queue of conversation channel pairs; for each it receives one packet and
dispatches on its kind, mutating the table of `UserState` records, replying
over the conversation, sweeping expired codes and flushing the persisted
file when dirty.  We embed the loop body as pure functions:

  * `mainDispatch` is the `match packet { ... }` statement (lines 62-196).
    `Except.error` models both a `return Err(..)` from `main` (which
    terminates the Authority task) and a panic from `Option::unwrap` on
    `None` (which also brings the task down); the two are distinguished by
    the error string.  Replies sent over the conversation are collected in
    `sends`.  The `continued` flag records the `continue` statement of the
    AlreadyLinked branch (line 113), which jumps back to the top of the
    loop, skipping the expiry sweep and the dirty flush of that iteration.
  * `sweep` is the expiry removal (lines 199-204).
  * `persistTable`/`loadTable` are the serde round trip of `UserState`
    (lines 206-223 and 246-258): `verify_code` and `code_expires` carry
    `skip_serializing, skip_deserializing`, and only PENDING/APPROVED
    records are written.
  * `loopIter` is one full iteration of the `loop` (lines 54-224).

Randomness (`random.random_range(100000..1000000)`, line 68) is embedded as
a list of prospective codes `rands` consumed by `genCode`, the retry loop of
lines 66-75; the range bound is a hypothesis supplied by the caller, as it
is the contract of `random_range`.  Time (`SystemTime::now` in millis) is a
`now : Nat` parameter.
-/

namespace CCBot

/-- `enum VerifyState` (main.rs lines 280-285). -/
inductive VerifyState where
  | NEW
  | PENDING
  | APPROVED
deriving DecidableEq, Repr

/-- `struct UserState` (main.rs lines 246-258).  `discord_id` and
`verify_message` are `Option<u64>` (here `Option Nat`), `verify_code` is
`Option<i32>` (here `Option Int`), `code_expires` is `Option<u128>`
milliseconds since the epoch (here `Option Nat`). -/
structure UserState where
  name : String
  uuid : String
  discord_id : Option Nat
  verify_state : VerifyState
  verify_message : Option Nat
  verify_code : Option Int
  code_expires : Option Nat
deriving DecidableEq, Repr

/-- `UserState::new` (main.rs lines 260-278): a fresh record in state NEW
holding the code and an expiry 30 seconds (30000 ms) past `now`. -/
def UserState.new (name uuid : String) (code : Int) (now : Nat) : UserState :=
  { name := name
    uuid := uuid
    discord_id := none
    verify_state := VerifyState.NEW
    verify_message := none
    verify_code := some code
    code_expires := some (now + 1000 * 30) }

/-- `enum Packet` (main.rs lines 287-301). -/
inductive Packet where
  | ConnectQuery (name uuid : String)
  | ConnectResponse (msg : String)
  | DiscordCode (code : Int) (user : Nat)
  | DiscordApproval (uuid : String)
  | VerifyPending (uuid name : String)
  | LinkVerifyMessage (id : Nat)
  | AlreadyLinked
  | VerifyCodeInvalid
  | RemoveUser (id : Nat)
  | RemoveMessage (id : Nat)
  | ApprovalSuccess
  | ApprovalFailure
deriving DecidableEq, Repr

/-- The code-generation retry loop (main.rs lines 66-75): draw candidates
until one collides with no record's `verify_code`.  The Rust loop draws from
an endless RNG; here the candidate stream is finite and exhaustion is
`none` (the Rust loop would simply keep drawing). -/
def genCode (states : List UserState) : List Int → Option Int
  | [] => none
  | c :: rest =>
    if states.any (fun s => s.verify_code == some c) then genCode states rest
    else some c

/-- In-place mutation through `iter_mut().find(p)` (main.rs line 117,
line 158): rewrite the first element satisfying `p` with `f`, leave the
rest alone. -/
def updateFirst {α : Type} (p : α → Bool) (f : α → α) : List α → List α
  | [] => []
  | a :: rest => if p a then f a :: rest else a :: updateFirst p f rest

/-- The NEW-state connect response (main.rs lines 84-86). -/
def newCodeResponse (code : Int) : String :=
  "Please type the following code into the #verification channel:\n" ++ toString code

/-- The PENDING-state connect response (main.rs line 92). -/
def pendingResponse : String :=
  "Your account is currently pending admin approval. Please try again later."

/-- The `match state.verify_state` of the ConnectQuery arm (main.rs lines
81-103): NEW replies the code instructions (unwrapping `verify_code`),
PENDING the pending-approval text, APPROVED the empty string. -/
def connectReply (s : UserState) : Except String Packet :=
  match s.verify_state with
  | VerifyState.NEW =>
    match s.verify_code with
    | none => Except.error "panic: called Option::unwrap on a None value"
    | some code => Except.ok (Packet.ConnectResponse (newCodeResponse code))
  | VerifyState.PENDING => Except.ok (Packet.ConnectResponse pendingResponse)
  | VerifyState.APPROVED => Except.ok (Packet.ConnectResponse "")

/-- Outcome of one dispatch of the Authority's `match packet` statement:
the table and dirty flag after it, the packets sent over the conversation,
and whether the arm ended in `continue` (main.rs line 113), which skips the
expiry sweep and flush of that loop iteration. -/
structure DispatchResult where
  table : List UserState
  dirty : Bool
  sends : List Packet
  continued : Bool
deriving DecidableEq, Repr

/-- The Authority's dispatch on one received packet (main.rs lines 62-196).
`followUp` is what `channel.receiver.recv()` would deliver next (used only
by the DiscordCode arm, lines 135-144): `none` models a closed channel.
`Except.error` models `return Err(..)` from `main` or a panic; either way
the Authority task terminates. -/
def mainDispatch (t : List UserState) (dirty : Bool) (p : Packet)
    (followUp : Option Packet) (rands : List Int) (now : Nat) :
    Except String DispatchResult :=
  match p with
  | Packet.ConnectQuery name uuid =>
    -- lines 63-104
    let t1E : Except String (List UserState) :=
      if t.any (fun s => s.uuid == uuid) then Except.ok t
      else
        match genCode t rands with
        | none => Except.error "code generation exhausted its candidates"
        | some code => Except.ok (t ++ [UserState.new name uuid code now])
    match t1E with
    | Except.error e => Except.error e
    | Except.ok t1 =>
      match t1.find? (fun s => s.uuid == uuid) with
      | none => Except.error "panic: called Option::unwrap on a None value"
      | some s =>
        match connectReply s with
        | Except.error e => Except.error e
        | Except.ok pkt =>
          Except.ok { table := t1, dirty := dirty, sends := [pkt], continued := false }
  | Packet.DiscordCode code user =>
    -- lines 106-154
    if t.any (fun s => s.discord_id == some user) then
      Except.ok { table := t, dirty := dirty, sends := [Packet.AlreadyLinked],
                  continued := true }
    else
      match t.find? (fun s => s.verify_code == some code
          && s.verify_state == VerifyState.NEW) with
      | none =>
        Except.ok { table := t, dirty := dirty, sends := [Packet.VerifyCodeInvalid],
                    continued := false }
      | some s =>
        match followUp with
        | none => Except.error "Thread did not send linked verify message id!"
        | some (Packet.LinkVerifyMessage messageId) =>
          Except.ok
            { table :=
                updateFirst
                  (fun x => x.verify_code == some code
                    && x.verify_state == VerifyState.NEW)
                  (fun x =>
                    { x with
                      discord_id := some user
                      verify_state := VerifyState.PENDING
                      verify_code := none
                      code_expires := none
                      verify_message := some messageId }) t
              dirty := true
              sends := [Packet.VerifyPending s.uuid s.name]
              continued := false }
        | some _ =>
          Except.error "Unexpected packet received instead of linked verify message id!"
  | Packet.DiscordApproval uuid =>
    -- lines 156-171: the log line unwraps `state.discord_id`
    match t.find? (fun s => s.uuid == uuid) with
    | some s =>
      match s.discord_id with
      | none => Except.error "panic: called Option::unwrap on a None value"
      | some _ =>
        Except.ok
          { table := updateFirst (fun x => x.uuid == uuid)
              (fun x => { x with verify_state := VerifyState.APPROVED }) t
            dirty := true
            sends := [Packet.ApprovalSuccess]
            continued := false }
    | none =>
      Except.ok { table := t, dirty := dirty, sends := [Packet.ApprovalFailure],
                  continued := false }
  | Packet.RemoveUser id =>
    -- lines 173-193: the reply unwraps `state.verify_message`
    match t.find? (fun s => s.discord_id == some id) with
    | some s =>
      match s.verify_message with
      | none => Except.error "panic: called Option::unwrap on a None value"
      | some messageId =>
        Except.ok
          { table := t.filter (fun s => !(s.discord_id == some id))
            dirty := true
            sends := [Packet.RemoveMessage messageId]
            continued := false }
    | none =>
      Except.ok
        { table := t.filter (fun s => !(s.discord_id == some id))
          dirty := true
          sends := []
          continued := false }
  | _ => Except.error "Unexpected packet received in main loop!"

/-- The expiry sweep (main.rs lines 199-204): retain records whose
`code_expires` is absent or strictly after `now`. -/
def sweep (t : List UserState) (now : Nat) : List UserState :=
  t.filter (fun s =>
    match s.code_expires with
    | none => true
    | some e => decide (now < e))

/-- The persisted shape of a record (main.rs lines 246-258): every field of
`UserState` except `verify_code` and `code_expires`, which carry
`skip_serializing, skip_deserializing`. -/
structure PersistedUserState where
  name : String
  uuid : String
  discord_id : Option Nat
  verify_state : VerifyState
  verify_message : Option Nat
deriving DecidableEq, Repr

/-- Projection of a record onto its persisted fields (serialization). -/
def UserState.toPersisted (s : UserState) : PersistedUserState :=
  { name := s.name
    uuid := s.uuid
    discord_id := s.discord_id
    verify_state := s.verify_state
    verify_message := s.verify_message }

/-- Deserialization of a persisted record: the skipped fields come back as
their defaults, `None`. -/
def PersistedUserState.toUserState (p : PersistedUserState) : UserState :=
  { name := p.name
    uuid := p.uuid
    discord_id := p.discord_id
    verify_state := p.verify_state
    verify_message := p.verify_message
    verify_code := none
    code_expires := none }

/-- Whether a record is written to the users file (main.rs lines 214-219):
only PENDING or APPROVED records are serialized. -/
def isPersisted (s : UserState) : Bool :=
  match s.verify_state with
  | VerifyState.NEW => false
  | VerifyState.PENDING => true
  | VerifyState.APPROVED => true

/-- Snapshot written to the users file when dirty (main.rs lines 206-223). -/
def persistTable (t : List UserState) : List PersistedUserState :=
  (t.filter isPersisted).map UserState.toPersisted

/-- Reading the users file back at startup (main.rs lines 44-48). -/
def loadTable (l : List PersistedUserState) : List UserState :=
  l.map PersistedUserState.toUserState

/-- Outcome of one full iteration of the Authority loop: table, dirty flag,
conversation sends, whether the dispatch arm ended in `continue`, and the
snapshot written to disk by the flush (`none` when nothing was written). -/
structure LoopResult where
  table : List UserState
  dirty : Bool
  sends : List Packet
  continued : Bool
  written : Option (List PersistedUserState)
deriving DecidableEq, Repr

/-- The tail of a loop iteration (main.rs lines 199-223): expiry sweep, then
flush of the persisted snapshot when dirty. -/
def sweepAndFlush (t : List UserState) (dirty : Bool) (sends : List Packet)
    (now : Nat) : LoopResult :=
  let t2 := sweep t now
  if dirty then
    { table := t2, dirty := false, sends := sends, continued := false
      written := some (persistTable t2) }
  else
    { table := t2, dirty := false, sends := sends, continued := false
      written := none }

/-- One iteration of the Authority loop (main.rs lines 54-224).  `conv` is
`none` for an idle poll (`try_recv` empty) and `some (p, followUp)` for a
delivered conversation whose first packet is `p`.  The AlreadyLinked arm's
`continue` (line 113) skips the sweep and flush of the iteration. -/
def loopIter (t : List UserState) (dirty : Bool)
    (conv : Option (Packet × Option Packet)) (rands : List Int) (now : Nat) :
    Except String LoopResult :=
  match conv with
  | none => Except.ok (sweepAndFlush t dirty [] now)
  | some (p, followUp) =>
    match mainDispatch t dirty p followUp rands now with
    | Except.error e => Except.error e
    | Except.ok r =>
      if r.continued then
        Except.ok { table := r.table, dirty := r.dirty, sends := r.sends,
                    continued := true, written := none }
      else
        Except.ok (sweepAndFlush r.table r.dirty r.sends now)

/-- The table invariant of the spec (§3): `verify_code` is non-null iff the
state is NEW, and `discord_id` is non-null iff the state is not NEW. -/
def Inv (t : List UserState) : Prop :=
  ∀ s ∈ t, (s.verify_code ≠ none ↔ s.verify_state = VerifyState.NEW) ∧
    (s.discord_id ≠ none ↔ s.verify_state ≠ VerifyState.NEW)

/-- The four packet kinds the Authority's dispatch handles as the first
message of a conversation (main.rs lines 62-196); everything else falls to
the `x => return Err(..)` arm at line 195. -/
def isRequestKind : Packet → Bool
  | Packet.ConnectQuery _ _ => true
  | Packet.DiscordCode _ _ => true
  | Packet.DiscordApproval _ => true
  | Packet.RemoveUser _ => true
  | _ => false

/-- Whether a packet is the LinkVerifyMessage follow-up the DiscordCode arm
blocks for (main.rs lines 135-144). -/
def isLinkVerify : Packet → Bool
  | Packet.LinkVerifyMessage _ => true
  | _ => false

/-!
The wire-codec buffer (src/tcp.rs lines 79-149).  A fixed 128-byte array
with independent read and write cursors.  Bytes are `Nat`s below 256; a
string is embedded as its UTF-8 byte list, so `val.len()` is the byte
length.  Methods that mutate `self` and return a `Result` are embedded as
functions returning the mutated buffer together with an
`Except String Unit`: on error the mutations already applied remain, as in
the Rust.
-/

/-- `const BUFFER_SIZE: usize = 128` (tcp.rs line 79). -/
def BUFFER_SIZE : Nat := 128

/-- `struct Buffer` (tcp.rs lines 81-85). -/
structure Buffer where
  read_cursor : Nat
  write_cursor : Nat
  data : List Nat
deriving DecidableEq, Repr

/-- `Buffer::new` (tcp.rs lines 88-94). -/
def Buffer.new : Buffer :=
  { read_cursor := 0, write_cursor := 0, data := List.replicate BUFFER_SIZE 0 }

/-- `Buffer::reset` (tcp.rs lines 96-99): zero both cursors, keep the data. -/
def Buffer.reset (b : Buffer) : Buffer :=
  { b with read_cursor := 0, write_cursor := 0 }

/-- `copy_from_slice` into `data[pos..pos + bytes.length]`: the caller has
already checked the range is inside the array. -/
def writeBytes (data : List Nat) (pos : Nat) (bytes : List Nat) : List Nat :=
  data.take pos ++ bytes ++ data.drop (pos + bytes.length)

/-- `u32::from_be_bytes` on a 4-byte slice. -/
def fromBE4 (bytes : List Nat) : Nat :=
  match bytes with
  | [a, b, c, d] => ((a * 256 + b) * 256 + c) * 256 + d
  | _ => 0

/-- `u32::to_be_bytes` (the value is reduced modulo 2^32, as `as u32` and
the fixed width do in Rust). -/
def toBE4 (n : Nat) : List Nat :=
  [n / 16777216 % 256, n / 65536 % 256, n / 256 % 256, n % 256]

/-- Outcome of `Buffer::read_from_tcp`: the buffer afterwards, how many
bytes were consumed from the stream, and the `Result`. -/
structure ReadTcpResult where
  buffer : Buffer
  consumed : Nat
  result : Except String Unit
deriving Repr

/-- `Buffer::read_from_tcp` (tcp.rs lines 101-115): reset, read a 4-byte
big-endian length into `data[0..4]`, reject a declared length above
`BUFFER_SIZE` before touching the payload, else read exactly that many
payload bytes into `data[0..len]` and advance the write cursor.  `input` is
the byte stream the socket would deliver; a stream too short for a
`read_exact` is the stream-EOF error. -/
def Buffer.read_from_tcp (b : Buffer) (input : List Nat) : ReadTcpResult :=
  let b0 := b.reset
  if input.length < 4 then
    { buffer := b0, consumed := input.length,
      result := Except.error "failed to fill whole buffer" }
  else
    let hdr := input.take 4
    let b1 := { b0 with data := writeBytes b0.data 0 hdr }
    let len := fromBE4 hdr
    if BUFFER_SIZE < len then
      { buffer := b1, consumed := 4,
        result := Except.error
          ("Attempted to read packet with length " ++ toString len ++ "!") }
    else if input.length - 4 < len then
      { buffer := b1, consumed := input.length,
        result := Except.error "failed to fill whole buffer" }
    else
      { buffer :=
          { b1 with
            data := writeBytes b1.data 0 ((input.drop 4).take len)
            write_cursor := b1.write_cursor + len }
        consumed := 4 + len
        result := Except.ok () }

/-- `Buffer::put_u32` via `impl_put!` (tcp.rs lines 24-36, 138): fail when
the four bytes would pass the end of the buffer, else copy the big-endian
bytes at the write cursor and advance it. -/
def Buffer.put_u32 (b : Buffer) (val : Nat) : Buffer × Except String Unit :=
  if BUFFER_SIZE < b.write_cursor + 4 then
    (b, Except.error "Ran into end of buffer while writing!")
  else
    ({ b with
       data := writeBytes b.data b.write_cursor (toBE4 val)
       write_cursor := b.write_cursor + 4 },
     Except.ok ())

/-- `Buffer::put_u8` via `impl_put!` (tcp.rs lines 24-36, 137). -/
def Buffer.put_u8 (b : Buffer) (val : Nat) : Buffer × Except String Unit :=
  if BUFFER_SIZE < b.write_cursor + 1 then
    (b, Except.error "Ran into end of buffer while writing!")
  else
    ({ b with
       data := writeBytes b.data b.write_cursor [val % 256]
       write_cursor := b.write_cursor + 1 },
     Except.ok ())

/-- `Buffer::put_string` (tcp.rs lines 140-149): put the 4-byte length
first with `put_u32` (question-mark propagation on its failure), then check
the bytes fit, then copy them.  `val` is the string's UTF-8 bytes. -/
def Buffer.put_string (b : Buffer) (val : List Nat) : Buffer × Except String Unit :=
  let len := val.length
  let r1 := b.put_u32 len
  match r1.2 with
  | Except.error e => (r1.1, Except.error e)
  | Except.ok _ =>
    if BUFFER_SIZE < r1.1.write_cursor + len then
      (r1.1, Except.error "Ran into end of buffer while writing!")
    else
      ({ r1.1 with
         data := writeBytes r1.1.data r1.1.write_cursor val
         write_cursor := r1.1.write_cursor + len },
       Except.ok ())

/-!
Concrete records used by counterexamples and witnesses.
-/

/-- A NEW record whose code expired at time 5 (as `UserState.new` creates
it, with the expiry shifted into the past). -/
def rExpired : UserState :=
  { name := "a", uuid := "u1", discord_id := none,
    verify_state := VerifyState.NEW, verify_message := none,
    verify_code := some 111111, code_expires := some 5 }

/-- A PENDING record linked to discord account 42 holding a notification
reference, as the DiscordCode arm leaves it. -/
def rLinked : UserState :=
  { name := "b", uuid := "u2", discord_id := some 42,
    verify_state := VerifyState.PENDING, verify_message := some 7,
    verify_code := none, code_expires := none }

/-- A PENDING record linked to discord account 42 with no notification
reference (as a users file holding `"verify_message": null` deserializes). -/
def rNoRef : UserState :=
  { name := "c", uuid := "u3", discord_id := some 42,
    verify_state := VerifyState.PENDING, verify_message := none,
    verify_code := none, code_expires := none }

/-- A fresh NEW record as `ConnectQuery` creates it for identity u1. -/
def rFresh : UserState := UserState.new "Steve" "u1" 123456 0

/-!
Helper lemmas about the embedding's list operations.
-/

/-- `updateFirst` keeps the list length. -/
theorem updateFirst_length {α : Type} (p : α → Bool) (f : α → α) (t : List α) :
    (updateFirst p f t).length = t.length := by
  induction t with
  | nil => rfl
  | cons a rest ih =>
    by_cases hp : p a = true
    · simp [updateFirst, hp]
    · simp [updateFirst, hp, ih]

/-- When `find?` locates `s`, `updateFirst` with the same predicate rewrites
exactly that position with `f s` and leaves every other position alone. -/
theorem updateFirst_spec {α : Type} (p : α → Bool) (f : α → α) (t : List α)
    (s : α) (h : t.find? p = some s) :
    ∃ i : Nat, t[i]? = some s ∧ (updateFirst p f t)[i]? = some (f s) ∧
      ∀ j : Nat, j ≠ i → (updateFirst p f t)[j]? = t[j]? := by
  induction t with
  | nil => simp at h
  | cons a rest ih =>
    by_cases hp : p a = true
    · rw [List.find?_cons_of_pos _ hp] at h
      injection h with h
      subst h
      refine ⟨0, by simp, by simp [updateFirst, hp], ?_⟩
      intro j hj
      match j, hj with
      | j + 1, _ => simp [updateFirst, hp]
    · rw [List.find?_cons_of_neg _ hp] at h
      obtain ⟨i, h1, h2, h3⟩ := ih h
      refine ⟨i + 1, by simpa using h1, by simp [updateFirst, hp, h2], ?_⟩
      intro j hj
      match j with
      | 0 => simp [updateFirst, hp]
      | j + 1 =>
        simp only [updateFirst, hp]
        simpa using h3 j (by omega)

/-- Every element of `updateFirst p f t` is an element of `t` or the image
`f s` of the first match `s`. -/
theorem mem_updateFirst {α : Type} (p : α → Bool) (f : α → α) (t : List α)
    (s x : α) (h : t.find? p = some s) (hx : x ∈ updateFirst p f t) :
    x ∈ t ∨ x = f s := by
  induction t with
  | nil => simp at h
  | cons a rest ih =>
    by_cases hp : p a = true
    · rw [List.find?_cons_of_pos _ hp] at h
      injection h with h
      subst h
      simp only [updateFirst, hp, if_pos] at hx
      rcases List.mem_cons.mp hx with h' | h'
      · right; exact h'
      · left; exact List.mem_cons_of_mem _ h'
    · rw [List.find?_cons_of_neg _ hp] at h
      simp only [updateFirst, hp] at hx
      rw [if_neg (by simp [hp])] at hx
      rcases List.mem_cons.mp hx with h' | h'
      · left; simp [h']
      · rcases ih h h' with h'' | h''
        · left; exact List.mem_cons_of_mem _ h''
        · right; exact h''

/-- A code returned by the generation loop collides with no record's
outstanding `verify_code`. -/
theorem genCode_fresh (states : List UserState) (rands : List Int) (c : Int)
    (h : genCode states rands = some c) :
    ∀ s ∈ states, s.verify_code ≠ some c := by
  induction rands with
  | nil => simp [genCode] at h
  | cons r rest ih =>
    by_cases hc : states.any (fun s => s.verify_code == some r) = true
    · rw [genCode, if_pos hc] at h
      exact ih h
    · rw [genCode, if_neg hc] at h
      injection h with h
      subst h
      intro s hs
      have := fun w => hc (List.any_eq_true.mpr ⟨s, hs, w⟩)
      simpa using this

/-- A code returned by the generation loop is one of the drawn candidates. -/
theorem genCode_mem (states : List UserState) (rands : List Int) (c : Int)
    (h : genCode states rands = some c) : c ∈ rands := by
  induction rands with
  | nil => simp [genCode] at h
  | cons r rest ih =>
    by_cases hc : states.any (fun s => s.verify_code == some r) = true
    · rw [genCode, if_pos hc] at h
      exact List.mem_cons_of_mem _ (ih h)
    · rw [genCode, if_neg hc] at h
      injection h with h
      subst h
      exact List.mem_cons_self _ _

/-- An in-bounds `writeBytes` keeps the array length. -/
theorem writeBytes_length (data : List Nat) (pos : Nat) (bytes : List Nat)
    (h : pos + bytes.length ≤ data.length) :
    (writeBytes data pos bytes).length = data.length := by
  simp only [writeBytes, List.length_append, List.length_take, List.length_drop]
  omega

/-- Both branches of the flush leave the swept table. -/
theorem sweepAndFlush_table (t : List UserState) (d : Bool) (sends : List Packet)
    (now : Nat) : (sweepAndFlush t d sends now).table = sweep t now := by
  by_cases hd : d = true <;> simp [sweepAndFlush, hd]

/-- A record surviving the sweep is a record of the table whose expiry, if
any, is still in the future. -/
theorem mem_sweep (t : List UserState) (now : Nat) (s : UserState)
    (h : s ∈ sweep t now) :
    s ∈ t ∧ ∀ e, s.code_expires = some e → now < e := by
  simp only [sweep, List.mem_filter] at h
  refine ⟨h.1, ?_⟩
  intro e he
  have h2 := h.2
  rw [he] at h2
  simpa using h2

/-!
Claim theorems.
-/

/-- C9: reading a frame enforces the 128-byte buffer capacity.  A frame
whose declared length exceeds `BUFFER_SIZE` is rejected with an error after
consuming only the 4 length bytes, before any payload byte is read; an
accepted frame reads exactly the declared number of payload bytes, leaving
the write cursor at that length, within the 128-byte bound, and the
128-byte data array the same size. -/
theorem C9_read_frame_bounds (b : Buffer) (input : List Nat)
    (hdata : b.data.length = BUFFER_SIZE) (hin : 4 ≤ input.length) :
    (BUFFER_SIZE < fromBE4 (input.take 4) →
      (b.read_from_tcp input).consumed = 4 ∧
      ∃ e, (b.read_from_tcp input).result = Except.error e) ∧
    (fromBE4 (input.take 4) ≤ BUFFER_SIZE →
      fromBE4 (input.take 4) ≤ input.length - 4 →
      (b.read_from_tcp input).result = Except.ok () ∧
      (b.read_from_tcp input).consumed = 4 + fromBE4 (input.take 4) ∧
      (b.read_from_tcp input).buffer.write_cursor = fromBE4 (input.take 4) ∧
      (b.read_from_tcp input).buffer.write_cursor ≤ BUFFER_SIZE ∧
      (b.read_from_tcp input).buffer.data.length = BUFFER_SIZE) := by
  have h4 : ¬ (input.length < 4) := by omega
  constructor
  · intro hbig
    refine ⟨?_, ?_⟩
    · simp only [Buffer.read_from_tcp, if_neg h4, if_pos hbig]
    · simp only [Buffer.read_from_tcp, if_neg h4, if_pos hbig]
      exact ⟨_, rfl⟩
  · intro hle hpay
    have hb : ¬ (BUFFER_SIZE < fromBE4 (input.take 4)) := by omega
    have hp : ¬ (input.length - 4 < fromBE4 (input.take 4)) := by omega
    have l1 : (writeBytes b.data 0 (input.take 4)).length = b.data.length := by
      refine writeBytes_length _ _ _ ?_
      simp only [Nat.zero_add, List.length_take, hdata, BUFFER_SIZE]
      omega
    have l3 : (writeBytes (writeBytes b.data 0 (input.take 4)) 0
        ((input.drop 4).take (fromBE4 (input.take 4)))).length = b.data.length := by
      rw [writeBytes_length]
      · exact l1
      · rw [l1]
        simp only [Nat.zero_add, List.length_take, hdata, BUFFER_SIZE]
        have := hle
        simp only [BUFFER_SIZE] at this
        omega
    refine ⟨?_, ?_, ?_, ?_, ?_⟩
    · simp only [Buffer.read_from_tcp, if_neg h4, if_neg hb, if_neg hp]
    · simp only [Buffer.read_from_tcp, if_neg h4, if_neg hb, if_neg hp]
    · simp only [Buffer.read_from_tcp, if_neg h4, if_neg hb, if_neg hp, Buffer.reset]
      omega
    · simp only [Buffer.read_from_tcp, if_neg h4, if_neg hb, if_neg hp, Buffer.reset]
      omega
    · simp only [Buffer.read_from_tcp, if_neg h4, if_neg hb, if_neg hp, Buffer.reset]
      rw [l3, hdata]

/-- C9 witness: the concrete stream `[0,0,0,200]` declares length 200 and
is rejected after its 4 header bytes; the stream `[0,0,0,2,7,8]` declares
length 2 and is accepted, consuming 6 bytes with the write cursor at 2. -/
theorem C9_witness :
    (Buffer.new.data.length = BUFFER_SIZE ∧ 4 ≤ ([0, 0, 0, 200] : List Nat).length ∧
      BUFFER_SIZE < fromBE4 (([0, 0, 0, 200] : List Nat).take 4) ∧
      (Buffer.new.read_from_tcp [0, 0, 0, 200]).consumed = 4 ∧
      ∃ e, (Buffer.new.read_from_tcp [0, 0, 0, 200]).result = Except.error e) ∧
    ((Buffer.new.read_from_tcp [0, 0, 0, 2, 7, 8]).result = Except.ok () ∧
      (Buffer.new.read_from_tcp [0, 0, 0, 2, 7, 8]).consumed =
        4 + fromBE4 (([0, 0, 0, 2, 7, 8] : List Nat).take 4) ∧
      (Buffer.new.read_from_tcp [0, 0, 0, 2, 7, 8]).buffer.write_cursor =
        fromBE4 (([0, 0, 0, 2, 7, 8] : List Nat).take 4) ∧
      (Buffer.new.read_from_tcp [0, 0, 0, 2, 7, 8]).buffer.write_cursor ≤ BUFFER_SIZE ∧
      (Buffer.new.read_from_tcp [0, 0, 0, 2, 7, 8]).buffer.data.length = BUFFER_SIZE) :=
  ⟨⟨by simp [Buffer.new, BUFFER_SIZE], by decide, by decide,
    (C9_read_frame_bounds Buffer.new [0, 0, 0, 200]
      (by simp [Buffer.new, BUFFER_SIZE]) (by decide)).1 (by decide)⟩,
   (C9_read_frame_bounds Buffer.new [0, 0, 0, 2, 7, 8]
      (by simp [Buffer.new, BUFFER_SIZE]) (by decide)).2 (by decide) (by decide)⟩

/-- C4 counterexample: the claim includes dispatches that end in an
AlreadyLinked reply, but that arm's `continue` (main.rs line 113) skips the
expiry sweep of the iteration: with an expired NEW record (expiry 5) in the
table, the iteration dispatching a DiscordCode from the already-linked
account 42 at time 10 ends with the expired record still present. -/
theorem C4_counterexample :
    loopIter [rExpired, rLinked] false
        (some (Packet.DiscordCode 123456 42, none)) [] 10 =
      Except.ok ⟨[rExpired, rLinked], false, [Packet.AlreadyLinked], true, none⟩ ∧
    rExpired.verify_state = VerifyState.NEW ∧
    rExpired.code_expires = some 5 ∧ 5 ≤ 10 :=
  ⟨rfl, rfl, rfl, by omega⟩

/-- C4 amended: after every idle poll and after every dispatch except one
that takes the AlreadyLinked `continue` path (which skips the sweep for
that iteration), every record in state NEW whose expiry is at or before the
current time is absent from the table. -/
theorem C4_sweep_after_iteration (t : List UserState) (d : Bool)
    (conv : Option (Packet × Option Packet)) (rands : List Int) (now : Nat)
    (r : LoopResult) (h : loopIter t d conv rands now = Except.ok r)
    (hc : r.continued = false) :
    ∀ s ∈ r.table, s.verify_state = VerifyState.NEW →
      ∀ e, s.code_expires = some e → now < e := by
  intro s hs _ e he
  have htab : ∃ t0, r.table = sweep t0 now := by
    cases conv with
    | none =>
      simp only [loopIter, Except.ok.injEq] at h
      exact ⟨t, by rw [← h, sweepAndFlush_table]⟩
    | some c =>
      obtain ⟨p, fu⟩ := c
      cases hdisp : mainDispatch t d p fu rands now with
      | error e0 => simp [loopIter, hdisp] at h
      | ok r0 =>
        by_cases hcont : r0.continued = true
        · simp only [loopIter, hdisp, if_pos hcont, Except.ok.injEq] at h
          rw [← h] at hc
          simp at hc
        · simp only [loopIter, hdisp, if_neg hcont, Except.ok.injEq] at h
          exact ⟨r0.table, by rw [← h, sweepAndFlush_table]⟩
  obtain ⟨t0, ht0⟩ := htab
  rw [ht0] at hs
  exact (mem_sweep t0 now s hs).2 e he

/-- C4 witness: an idle poll at time 10 over the table holding only the
expired record removes it; the resulting empty table trivially holds no
expired NEW record. -/
theorem C4_witness :
    loopIter [rExpired] true none [] 10 =
      Except.ok ⟨[], false, [], false, some []⟩ ∧
    (⟨[], false, [], false, some []⟩ : LoopResult).continued = false ∧
    ∀ s ∈ (⟨[], false, [], false, some []⟩ : LoopResult).table,
      s.verify_state = VerifyState.NEW →
      ∀ e, s.code_expires = some e → 10 < e :=
  ⟨rfl, rfl, C4_sweep_after_iteration [rExpired] true none [] 10
      ⟨[], false, [], false, some []⟩ rfl rfl⟩

/-- C5: DiscordCode(code, externalAccountId).  If some record already
carries that account, the reply is AlreadyLinked and table and dirty flag
are unchanged; else if no NEW record carries the code, the reply is
VerifyCodeInvalid and table and dirty flag are unchanged; else the first
(under the invariant, unique) matching NEW record transitions to Pending
carrying the account, its code and expiry cleared, the reply is
VerifyPending(identity, name), and with the follow-up LinkVerifyMessage(ref)
received, ref is stored as the record's notification reference and the
dirty flag is set. -/
theorem C5_discord_code (t : List UserState) (d : Bool) (code : Int)
    (user : Nat) (fu : Option Packet) (rands : List Int) (now : Nat) :
    (t.any (fun s => s.discord_id == some user) = true →
      mainDispatch t d (Packet.DiscordCode code user) fu rands now =
        Except.ok ⟨t, d, [Packet.AlreadyLinked], true⟩) ∧
    (t.any (fun s => s.discord_id == some user) = false →
      t.find? (fun s => s.verify_code == some code
        && s.verify_state == VerifyState.NEW) = none →
      mainDispatch t d (Packet.DiscordCode code user) fu rands now =
        Except.ok ⟨t, d, [Packet.VerifyCodeInvalid], false⟩) ∧
    (∀ s ref, t.any (fun s => s.discord_id == some user) = false →
      t.find? (fun s => s.verify_code == some code
        && s.verify_state == VerifyState.NEW) = some s →
      fu = some (Packet.LinkVerifyMessage ref) →
      ∃ t', mainDispatch t d (Packet.DiscordCode code user) fu rands now =
          Except.ok ⟨t', true, [Packet.VerifyPending s.uuid s.name], false⟩ ∧
        ∃ i : Nat, t[i]? = some s ∧
          t'[i]? = some { s with
            discord_id := some user
            verify_state := VerifyState.PENDING
            verify_code := none
            code_expires := none
            verify_message := some ref } ∧
          ∀ j : Nat, j ≠ i → t'[j]? = t[j]?) := by
  refine ⟨?_, ?_, ?_⟩
  · intro hany
    simp only [mainDispatch, if_pos hany]
  · intro hany hfind
    have hany' : ¬ (t.any (fun s => s.discord_id == some user) = true) := by
      simp [hany]
    simp only [mainDispatch, if_neg hany', hfind]
  · intro s ref hany hfind hfu
    subst hfu
    have hany' : ¬ (t.any (fun s => s.discord_id == some user) = true) := by
      simp [hany]
    refine ⟨updateFirst
      (fun x => x.verify_code == some code && x.verify_state == VerifyState.NEW)
      (fun x => { x with
        discord_id := some user
        verify_state := VerifyState.PENDING
        verify_code := none
        code_expires := none
        verify_message := some ref }) t, ?_, ?_⟩
    · simp only [mainDispatch, if_neg hany', hfind]
    · exact updateFirst_spec _ _ t s hfind

/-- C5 witness: on the table holding only the NEW record with code 111111,
account 9 submits that code with follow-up LinkVerifyMessage(55): the
record becomes Pending, linked to 9, with code and expiry cleared and
notification reference 55 stored, and the reply is VerifyPending. -/
theorem C5_witness :
    ([rExpired].any (fun s => s.discord_id == some 9) = false) ∧
    ([rExpired].find? (fun s => s.verify_code == some 111111
      && s.verify_state == VerifyState.NEW) = some rExpired) ∧
    ∃ t', mainDispatch [rExpired] false (Packet.DiscordCode 111111 9)
        (some (Packet.LinkVerifyMessage 55)) [] 0 =
        Except.ok ⟨t', true,
          [Packet.VerifyPending rExpired.uuid rExpired.name], false⟩ ∧
      ∃ i : Nat, [rExpired][i]? = some rExpired ∧
        t'[i]? = some { rExpired with
          discord_id := some 9
          verify_state := VerifyState.PENDING
          verify_code := none
          code_expires := none
          verify_message := some 55 } ∧
        ∀ j : Nat, j ≠ i → t'[j]? = [rExpired][j]? :=
  ⟨rfl, rfl, (C5_discord_code [rExpired] false 111111 9
      (some (Packet.LinkVerifyMessage 55)) [] 0).2.2 rExpired 55 rfl rfl rfl⟩

/-- C6 counterexample: the claim says a linked record lacking a
notification reference yields no reply and no panic, but on the table
holding the linked PENDING record u3 with `verify_message = None`,
`RemoveUser(42)` panics on `state.verify_message.unwrap()` (main.rs line
188) and the record is not deleted. -/
theorem C6_counterexample :
    mainDispatch [rNoRef] false (Packet.RemoveUser 42) none [] 0 =
      Except.error "panic: called Option::unwrap on a None value" := rfl

/-- C6 amended: RemoveUser(externalAccountId) on a table whose first record
linked to that account has a notification reference replies
RemoveMessage(ref), deletes every record linked to the account and sets the
dirty flag; when the linked record has no notification reference the
Authority panics on `unwrap()` (and deletes nothing) instead of silently
ending the conversation; when no record is linked there is no reply, the
retain is a no-op, and the dirty flag is still set. -/
theorem C6_remove_user (t : List UserState) (d : Bool) (id : Nat)
    (fu : Option Packet) (rands : List Int) (now : Nat) :
    (∀ s m, t.find? (fun x => x.discord_id == some id) = some s →
      s.verify_message = some m →
      mainDispatch t d (Packet.RemoveUser id) fu rands now =
        Except.ok ⟨t.filter (fun x => !(x.discord_id == some id)), true,
          [Packet.RemoveMessage m], false⟩) ∧
    (∀ s, t.find? (fun x => x.discord_id == some id) = some s →
      s.verify_message = none →
      mainDispatch t d (Packet.RemoveUser id) fu rands now =
        Except.error "panic: called Option::unwrap on a None value") ∧
    (t.find? (fun x => x.discord_id == some id) = none →
      mainDispatch t d (Packet.RemoveUser id) fu rands now =
        Except.ok ⟨t.filter (fun x => !(x.discord_id == some id)), true,
          [], false⟩) := by
  refine ⟨?_, ?_, ?_⟩
  · intro s m hfind hm
    simp only [mainDispatch, hfind, hm]
  · intro s hfind hm
    simp only [mainDispatch, hfind, hm]
  · intro hfind
    simp only [mainDispatch, hfind]

/-- C6 witness: removing account 42 from the table holding only the linked
record u2 (notification reference 7) replies RemoveMessage(7), leaves the
empty table and sets the dirty flag. -/
theorem C6_witness :
    [rLinked].find? (fun x => x.discord_id == some 42) = some rLinked ∧
    rLinked.verify_message = some 7 ∧
    mainDispatch [rLinked] false (Packet.RemoveUser 42) none [] 0 =
      Except.ok ⟨[rLinked].filter (fun x => !(x.discord_id == some 42)), true,
        [Packet.RemoveMessage 7], false⟩ :=
  ⟨rfl, rfl, (C6_remove_user [rLinked] false 42 none [] 0).1 rLinked 7 rfl rfl⟩

/-- A record is persisted exactly when its state is PENDING or APPROVED. -/
theorem isPersisted_iff (s : UserState) : isPersisted s = true ↔
    (s.verify_state = VerifyState.PENDING ∨
      s.verify_state = VerifyState.APPROVED) := by
  cases h : s.verify_state <;> simp [isPersisted, h]

/-- C7: ConnectQuery(name, identity).  For an unseen identity, a record is
created in state NEW whose code is six digits (100000..=999999, given the
RNG contract on the drawn candidates), distinct from every outstanding
code in the table, with expiry 30000 ms past now, and the reply is the
ConnectResponse whose text mentions the code; for an existing record the
reply is the code instructions when NEW, the pending-approval text when
PENDING, and the empty string when APPROVED. -/
theorem C7_connect_query (t : List UserState) (d : Bool) (name uuid : String)
    (fu : Option Packet) (rands : List Int) (now : Nat) :
    (∀ code, (∀ c ∈ rands, 100000 ≤ c ∧ c < 1000000) →
      t.any (fun s => s.uuid == uuid) = false →
      genCode t rands = some code →
      (100000 ≤ code ∧ code ≤ 999999) ∧
      (∀ s ∈ t, s.verify_code ≠ some code) ∧
      (UserState.new name uuid code now).code_expires = some (now + 30000) ∧
      mainDispatch t d (Packet.ConnectQuery name uuid) fu rands now =
        Except.ok ⟨t ++ [UserState.new name uuid code now], d,
          [Packet.ConnectResponse (newCodeResponse code)], false⟩ ∧
      ∃ pre, newCodeResponse code = pre ++ toString code) ∧
    (∀ s, t.any (fun x => x.uuid == uuid) = true →
      t.find? (fun x => x.uuid == uuid) = some s →
      (s.verify_state = VerifyState.PENDING →
        mainDispatch t d (Packet.ConnectQuery name uuid) fu rands now =
          Except.ok ⟨t, d, [Packet.ConnectResponse pendingResponse], false⟩) ∧
      (s.verify_state = VerifyState.APPROVED →
        mainDispatch t d (Packet.ConnectQuery name uuid) fu rands now =
          Except.ok ⟨t, d, [Packet.ConnectResponse ""], false⟩) ∧
      (∀ c, s.verify_state = VerifyState.NEW → s.verify_code = some c →
        mainDispatch t d (Packet.ConnectQuery name uuid) fu rands now =
          Except.ok ⟨t, d, [Packet.ConnectResponse (newCodeResponse c)], false⟩ ∧
        ∃ pre, newCodeResponse c = pre ++ toString c)) := by
  constructor
  · intro code hrange hany hgen
    have hany' : ¬ (t.any (fun s => s.uuid == uuid) = true) := by simp [hany]
    have hcmem := genCode_mem t rands code hgen
    obtain ⟨hlo, hhi⟩ := hrange code hcmem
    have hfresh := genCode_fresh t rands code hgen
    have hfn : t.find? (fun s => s.uuid == uuid) = none := by
      rw [List.find?_eq_none]
      intro x hx hpx
      exact hany' (List.any_eq_true.mpr ⟨x, hx, hpx⟩)
    have hfind1 : (t ++ [UserState.new name uuid code now]).find?
        (fun s => s.uuid == uuid) = some (UserState.new name uuid code now) := by
      rw [List.find?_append, hfn]
      simp [UserState.new]
    have hrep : connectReply (UserState.new name uuid code now) =
        Except.ok (Packet.ConnectResponse (newCodeResponse code)) := rfl
    refine ⟨⟨hlo, by omega⟩, hfresh, by simp [UserState.new], ?_, ?_⟩
    · simp only [mainDispatch, if_neg hany', hgen, hfind1, hrep]
    · exact ⟨"Please type the following code into the #verification channel:\n", rfl⟩
  · intro s hany hfind
    refine ⟨?_, ?_, ?_⟩
    · intro hstate
      simp only [mainDispatch, if_pos hany, hfind, connectReply, hstate]
    · intro hstate
      simp only [mainDispatch, if_pos hany, hfind, connectReply, hstate]
    · intro c hstate hcode
      refine ⟨?_,
        ⟨"Please type the following code into the #verification channel:\n", rfl⟩⟩
      simp only [mainDispatch, if_pos hany, hfind, connectReply, hstate, hcode]

/-- C7 witness: on the empty table, identity u1 connecting with name Steve
and the RNG drawing 123456 creates exactly the fresh NEW record with that
six-digit code and replies with instructions mentioning it. -/
theorem C7_witness :
    (∀ c ∈ ([123456] : List Int), 100000 ≤ c ∧ c < 1000000) ∧
    ([] : List UserState).any (fun s => s.uuid == "u1") = false ∧
    genCode [] [123456] = some 123456 ∧
    ((100000 ≤ (123456 : Int) ∧ (123456 : Int) ≤ 999999) ∧
      (∀ s ∈ ([] : List UserState), s.verify_code ≠ some 123456) ∧
      (UserState.new "Steve" "u1" 123456 0).code_expires = some (0 + 30000) ∧
      mainDispatch [] false (Packet.ConnectQuery "Steve" "u1") none [123456] 0 =
        Except.ok ⟨[] ++ [UserState.new "Steve" "u1" 123456 0], false,
          [Packet.ConnectResponse (newCodeResponse 123456)], false⟩ ∧
      ∃ pre, newCodeResponse 123456 = pre ++ toString (123456 : Int)) :=
  ⟨by decide, rfl, rfl,
   (C7_connect_query [] false "Steve" "u1" none [123456] 0).1 123456
     (by decide) rfl rfl⟩

/-- C8: the persist/reload round trip keeps exactly the PENDING and
APPROVED records, compared over the persisted fields; no NEW record and no
code or expiry value survives a reload. -/
theorem C8_round_trip (t : List UserState) :
    (∀ p : PersistedUserState,
      (∃ s ∈ loadTable (persistTable t), s.toPersisted = p) ↔
      (∃ s ∈ t, (s.verify_state = VerifyState.PENDING ∨
        s.verify_state = VerifyState.APPROVED) ∧ s.toPersisted = p)) ∧
    (∀ s ∈ loadTable (persistTable t),
      s.verify_state ≠ VerifyState.NEW ∧ s.verify_code = none ∧
      s.code_expires = none) := by
  have hPT : ∀ q : PersistedUserState, (q.toUserState).toPersisted = q := by
    intro q
    rfl
  constructor
  · intro p
    constructor
    · rintro ⟨s, hs, hsp⟩
      simp only [loadTable, persistTable, List.mem_map, List.mem_filter] at hs
      obtain ⟨q, ⟨x, ⟨hxt, hxp⟩, hxq⟩, hqs⟩ := hs
      refine ⟨x, hxt, (isPersisted_iff x).mp hxp, ?_⟩
      rw [← hsp, ← hqs, ← hxq, hPT]
    · rintro ⟨x, hxt, hxs, hxp⟩
      refine ⟨(x.toPersisted).toUserState, ?_, ?_⟩
      · simp only [loadTable, persistTable, List.mem_map, List.mem_filter]
        exact ⟨x.toPersisted, ⟨x, ⟨hxt, (isPersisted_iff x).mpr hxs⟩, rfl⟩, rfl⟩
      · rw [hPT, hxp]
  · intro s hs
    simp only [loadTable, persistTable, List.mem_map, List.mem_filter] at hs
    obtain ⟨q, ⟨x, ⟨hxt, hxp⟩, hxq⟩, hqs⟩ := hs
    refine ⟨?_, ?_, ?_⟩
    · rw [← hqs, ← hxq]
      rcases (isPersisted_iff x).mp hxp with h | h <;>
        simp [PersistedUserState.toUserState, UserState.toPersisted, h]
    · rw [← hqs]
      rfl
    · rw [← hqs]
      rfl

/-- C8 witness: persisting the table holding the NEW record u1 and the
PENDING record u2 and reloading keeps exactly u2's persisted fields, and
every reloaded record is non-NEW with no code or expiry. -/
theorem C8_witness :
    ((∃ s ∈ loadTable (persistTable [rExpired, rLinked]),
        s.toPersisted = rLinked.toPersisted) ↔
      (∃ s ∈ [rExpired, rLinked], (s.verify_state = VerifyState.PENDING ∨
        s.verify_state = VerifyState.APPROVED) ∧
        s.toPersisted = rLinked.toPersisted)) ∧
    ∀ s ∈ loadTable (persistTable [rExpired, rLinked]),
      s.verify_state ≠ VerifyState.NEW ∧ s.verify_code = none ∧
      s.code_expires = none :=
  ⟨(C8_round_trip [rExpired, rLinked]).1 rLinked.toPersisted,
   (C8_round_trip [rExpired, rLinked]).2⟩

/-- C3: the table invariant — `verify_code` non-null iff state NEW,
`discord_id` non-null iff state not NEW — holds for every freshly created
record and is preserved by every dispatch of the Authority (over every
packet kind, including ConnectQuery creation, DiscordCode, DiscordApproval
and RemoveUser) and by the expiry sweep, starting from any table satisfying
it. -/
theorem C3_invariant_preserved :
    (∀ name uuid code now, Inv [UserState.new name uuid code now]) ∧
    (∀ t d p fu rands now r, Inv t →
      mainDispatch t d p fu rands now = Except.ok r → Inv r.table) ∧
    (∀ t now, Inv t → Inv (sweep t now)) := by
  have hnew : ∀ name uuid code now, Inv [UserState.new name uuid code now] := by
    intro name uuid code now
    simp [Inv, UserState.new]
  refine ⟨hnew, ?_, ?_⟩
  · intro t d p fu rands now r hInv hdisp
    simp only [Inv] at hInv ⊢
    cases p with
    | ConnectResponse a => simp [mainDispatch] at hdisp
    | VerifyPending a b => simp [mainDispatch] at hdisp
    | LinkVerifyMessage a => simp [mainDispatch] at hdisp
    | AlreadyLinked => simp [mainDispatch] at hdisp
    | VerifyCodeInvalid => simp [mainDispatch] at hdisp
    | RemoveMessage a => simp [mainDispatch] at hdisp
    | ApprovalSuccess => simp [mainDispatch] at hdisp
    | ApprovalFailure => simp [mainDispatch] at hdisp
    | ConnectQuery name uuid =>
      by_cases hany : t.any (fun s => s.uuid == uuid) = true
      · simp only [mainDispatch, if_pos hany] at hdisp
        cases hfind : t.find? (fun s => s.uuid == uuid) with
        | none => simp [hfind] at hdisp
        | some s =>
          simp only [hfind] at hdisp
          cases hrep : connectReply s with
          | error e => simp [hrep] at hdisp
          | ok pkt =>
            simp only [hrep, Except.ok.injEq] at hdisp
            have htab : r.table = t := by rw [← hdisp]
            rw [htab]
            exact hInv
      · simp only [mainDispatch, if_neg hany] at hdisp
        cases hgen : genCode t rands with
        | none => simp [hgen] at hdisp
        | some code =>
          simp only [hgen] at hdisp
          cases hfind : (t ++ [UserState.new name uuid code now]).find?
              (fun s => s.uuid == uuid) with
          | none => simp [hfind] at hdisp
          | some s =>
            simp only [hfind] at hdisp
            cases hrep : connectReply s with
            | error e => simp [hrep] at hdisp
            | ok pkt =>
              simp only [hrep, Except.ok.injEq] at hdisp
              have htab : r.table = t ++ [UserState.new name uuid code now] := by
                rw [← hdisp]
              rw [htab]
              intro x hx
              rcases List.mem_append.mp hx with hx' | hx'
              · exact hInv x hx'
              · rw [List.mem_singleton] at hx'
                subst hx'
                simp [UserState.new]
    | DiscordCode code user =>
      by_cases hany : t.any (fun s => s.discord_id == some user) = true
      · simp only [mainDispatch, if_pos hany, Except.ok.injEq] at hdisp
        have htab : r.table = t := by rw [← hdisp]
        rw [htab]
        exact hInv
      · simp only [mainDispatch, if_neg hany] at hdisp
        cases hfind : t.find? (fun s => s.verify_code == some code
            && s.verify_state == VerifyState.NEW) with
        | none =>
          simp only [hfind, Except.ok.injEq] at hdisp
          have htab : r.table = t := by rw [← hdisp]
          rw [htab]
          exact hInv
        | some s =>
          simp only [hfind] at hdisp
          cases fu with
          | none => simp at hdisp
          | some q =>
            cases q with
            | ConnectQuery a b => simp at hdisp
            | ConnectResponse a => simp at hdisp
            | DiscordCode a b => simp at hdisp
            | DiscordApproval a => simp at hdisp
            | VerifyPending a b => simp at hdisp
            | AlreadyLinked => simp at hdisp
            | VerifyCodeInvalid => simp at hdisp
            | RemoveUser a => simp at hdisp
            | RemoveMessage a => simp at hdisp
            | ApprovalSuccess => simp at hdisp
            | ApprovalFailure => simp at hdisp
            | LinkVerifyMessage mid =>
              simp only [Except.ok.injEq] at hdisp
              have htab : r.table = updateFirst
                  (fun x => x.verify_code == some code
                    && x.verify_state == VerifyState.NEW)
                  (fun x => { x with
                    discord_id := some user
                    verify_state := VerifyState.PENDING
                    verify_code := none
                    code_expires := none
                    verify_message := some mid }) t := by
                rw [← hdisp]
              rw [htab]
              intro x hx
              rcases mem_updateFirst _ _ t s x hfind hx with hx' | hx'
              · exact hInv x hx'
              · subst hx'
                simp
    | DiscordApproval uuid =>
      cases hfind : t.find? (fun s => s.uuid == uuid) with
      | none =>
        simp only [mainDispatch, hfind, Except.ok.injEq] at hdisp
        have htab : r.table = t := by rw [← hdisp]
        rw [htab]
        exact hInv
      | some s =>
        cases hdid : s.discord_id with
        | none => simp only [mainDispatch, hfind, hdid] at hdisp; simp at hdisp
        | some did =>
          simp only [mainDispatch, hfind, hdid, Except.ok.injEq] at hdisp
          have htab : r.table = updateFirst (fun x => x.uuid == uuid)
              (fun x => { x with verify_state := VerifyState.APPROVED }) t := by
            rw [← hdisp]
          rw [htab]
          intro x hx
          rcases mem_updateFirst _ _ t s x hfind hx with hx' | hx'
          · exact hInv x hx'
          · subst hx'
            have hsInv := hInv s (List.mem_of_find?_eq_some hfind)
            have hsNE : s.verify_state ≠ VerifyState.NEW := by
              apply hsInv.2.mp
              rw [hdid]
              simp
            have hcode : s.verify_code = none := by
              by_contra hc
              exact hsNE (hsInv.1.mp hc)
            constructor
            · simp [hcode]
            · simp [hdid]
    | RemoveUser id =>
      cases hfind : t.find? (fun s => s.discord_id == some id) with
      | none =>
        simp only [mainDispatch, hfind, Except.ok.injEq] at hdisp
        have htab : r.table = t.filter (fun x => !(x.discord_id == some id)) := by
          rw [← hdisp]
        rw [htab]
        intro x hx
        exact hInv x (List.mem_of_mem_filter hx)
      | some s =>
        cases hm : s.verify_message with
        | none => simp only [mainDispatch, hfind, hm] at hdisp; simp at hdisp
        | some m =>
          simp only [mainDispatch, hfind, hm, Except.ok.injEq] at hdisp
          have htab : r.table = t.filter (fun x => !(x.discord_id == some id)) := by
            rw [← hdisp]
          rw [htab]
          intro x hx
          exact hInv x (List.mem_of_mem_filter hx)
  · intro t now hInv
    simp only [Inv] at hInv ⊢
    intro s hs
    exact hInv s (mem_sweep t now s hs).1

/-- C3 witness: the invariant holds on the table with the one linked
PENDING record, and is preserved by the concrete DiscordApproval dispatch
that flips it to APPROVED. -/
theorem C3_witness :
    Inv [rLinked] ∧
    mainDispatch [rLinked] false (Packet.DiscordApproval "u2") none [] 0 =
      Except.ok ⟨[{ rLinked with verify_state := VerifyState.APPROVED }], true,
        [Packet.ApprovalSuccess], false⟩ ∧
    Inv ((⟨[{ rLinked with verify_state := VerifyState.APPROVED }], true,
        [Packet.ApprovalSuccess], false⟩ : DispatchResult)).table := by
  have h1 : Inv [rLinked] := by simp [Inv, rLinked]
  have h2 : mainDispatch [rLinked] false (Packet.DiscordApproval "u2") none [] 0 =
      Except.ok ⟨[{ rLinked with verify_state := VerifyState.APPROVED }], true,
        [Packet.ApprovalSuccess], false⟩ := rfl
  exact ⟨h1, h2, C3_invariant_preserved.2.1 [rLinked] false
    (Packet.DiscordApproval "u2") none [] 0 _ h1 h2⟩

/-- C10: `put_string` is not atomic on failure.  Whenever the 4-byte length
still fits (`write_cursor + 4 ≤ 128`) but the string bytes do not
(`write_cursor + 4 + |s| > 128`), the call returns the overflow error, yet
the big-endian length of `s` has been written at the old write cursor and
the write cursor has advanced by 4, so the buffer is not left unchanged. -/
theorem C10_put_string_nonatomic (b : Buffer) (s : List Nat)
    (h1 : b.write_cursor + 4 ≤ BUFFER_SIZE)
    (h2 : BUFFER_SIZE < b.write_cursor + 4 + s.length) :
    (b.put_string s).2 = Except.error "Ran into end of buffer while writing!" ∧
    (b.put_string s).1.write_cursor = b.write_cursor + 4 ∧
    (b.put_string s).1.data = writeBytes b.data b.write_cursor (toBE4 s.length) ∧
    (b.put_string s).1 ≠ b := by
  have hc1 : ¬ (BUFFER_SIZE < b.write_cursor + 4) := by omega
  have hc2 : BUFFER_SIZE < b.write_cursor + 4 + s.length := h2
  refine ⟨?_, ?_, ?_, ?_⟩
  · simp only [Buffer.put_string, Buffer.put_u32, if_neg hc1, if_pos hc2]
  · simp only [Buffer.put_string, Buffer.put_u32, if_neg hc1, if_pos hc2]
  · simp only [Buffer.put_string, Buffer.put_u32, if_neg hc1, if_pos hc2]
  · simp only [Buffer.put_string, Buffer.put_u32, if_neg hc1, if_pos hc2]
    intro hEq
    have hwc := congrArg Buffer.write_cursor hEq
    simp only at hwc
    omega

/-- C1 counterexample: the claim says an unexpected first message kind
aborts only that conversation and the Authority never terminates, but
delivering `AlreadyLinked` as a conversation's first packet hits the
`x => return Err(..)` arm (main.rs line 195): the dispatch yields an error
that `main` returns, terminating the Authority task. -/
theorem C1_counterexample :
    mainDispatch [] false Packet.AlreadyLinked none [] 0 =
      Except.error "Unexpected packet received in main loop!" := rfl

/-- C1 amended: an unexpected message kind terminates the Authority.  Any
first packet other than the four request kinds makes the dispatch return an
error (main.rs line 195), and during a DiscordCode dispatch a closed
channel or any follow-up other than LinkVerifyMessage does the same
(main.rs lines 135-144); `main` returns that error, so the Authority task
stops serving all subsequent conversations rather than aborting only the
offending one. -/
theorem C1_unexpected_terminates (t : List UserState) (d : Bool) (p : Packet)
    (fu : Option Packet) (rands : List Int) (now : Nat) :
    (isRequestKind p = false →
      ∃ e, mainDispatch t d p fu rands now = Except.error e) ∧
    (∀ code user s,
      p = Packet.DiscordCode code user →
      t.any (fun x => x.discord_id == some user) = false →
      t.find? (fun x => x.verify_code == some code
        && x.verify_state == VerifyState.NEW) = some s →
      (fu = none ∨ ∃ q, fu = some q ∧ isLinkVerify q = false) →
      ∃ e, mainDispatch t d p fu rands now = Except.error e) := by
  constructor
  · intro hreq
    cases p <;> first
      | exact ⟨"Unexpected packet received in main loop!", rfl⟩
      | simp [isRequestKind] at hreq
  · intro code user s hpEq hany hfind hfu
    subst hpEq
    have hany' : ¬ (t.any (fun x => x.discord_id == some user) = true) := by
      simp [hany]
    rcases hfu with rfl | ⟨q, rfl, hq⟩
    · exact ⟨"Thread did not send linked verify message id!",
        by simp only [mainDispatch, if_neg hany', hfind]⟩
    · cases q <;> try simp [isLinkVerify] at hq
      all_goals
        exact ⟨"Unexpected packet received instead of linked verify message id!",
          by simp only [mainDispatch, if_neg hany', hfind]⟩

/-- C1 witness: on the empty table, delivering `ApprovalSuccess` as a
first packet makes the dispatch fail, and a DiscordCode dispatch whose
follow-up is `AlreadyLinked` instead of LinkVerifyMessage fails too. -/
theorem C1_witness :
    (isRequestKind Packet.ApprovalSuccess = false ∧
      ∃ e, mainDispatch [] true Packet.ApprovalSuccess none [] 0 = Except.error e) ∧
    ∃ e, mainDispatch [rExpired] false (Packet.DiscordCode 111111 9)
        (some Packet.AlreadyLinked) [] 0 = Except.error e :=
  ⟨⟨rfl, (C1_unexpected_terminates [] true Packet.ApprovalSuccess none [] 0).1 rfl⟩,
   (C1_unexpected_terminates [rExpired] false (Packet.DiscordCode 111111 9)
       (some Packet.AlreadyLinked) [] 0).2 111111 9 rExpired rfl rfl rfl
     (Or.inr ⟨Packet.AlreadyLinked, rfl, rfl⟩)⟩

/-- C2 counterexample: the claim covers "every record state the existing
record may be in, including New", but on a table holding the freshly
created NEW record for identity u1 (whose `discord_id` is `None`),
`DiscordApproval("u1")` panics on `state.discord_id.unwrap()` in the log
statement (main.rs line 163) instead of replying ApprovalSuccess. -/
theorem C2_counterexample :
    mainDispatch [rFresh] false (Packet.DiscordApproval "u1") none [] 0 =
      Except.error "panic: called Option::unwrap on a None value" := rfl

/-- C2 amended: DiscordApproval(identity) behaves as claimed only when the
existing record has a linked account (states Pending and Approved under the
table invariant): then it transitions to Approved, replies ApprovalSuccess
and marks dirty; when the record exists but has no `discord_id` — in
particular a record still in state New — the Authority panics on
`unwrap()`; when no record exists it replies ApprovalFailure and the table
is unchanged. -/
theorem C2_approval (t : List UserState) (d : Bool) (uuid : String)
    (fu : Option Packet) (rands : List Int) (now : Nat) :
    (∀ s did, t.find? (fun x => x.uuid == uuid) = some s →
      s.discord_id = some did →
      ∃ t', mainDispatch t d (Packet.DiscordApproval uuid) fu rands now =
          Except.ok ⟨t', true, [Packet.ApprovalSuccess], false⟩ ∧
        ∃ i : Nat, t[i]? = some s ∧
          t'[i]? = some { s with verify_state := VerifyState.APPROVED } ∧
          ∀ j : Nat, j ≠ i → t'[j]? = t[j]?) ∧
    (∀ s, t.find? (fun x => x.uuid == uuid) = some s → s.discord_id = none →
      mainDispatch t d (Packet.DiscordApproval uuid) fu rands now =
        Except.error "panic: called Option::unwrap on a None value") ∧
    (t.find? (fun x => x.uuid == uuid) = none →
      mainDispatch t d (Packet.DiscordApproval uuid) fu rands now =
        Except.ok ⟨t, d, [Packet.ApprovalFailure], false⟩) := by
  refine ⟨?_, ?_, ?_⟩
  · intro s did hfind hdid
    refine ⟨updateFirst (fun x => x.uuid == uuid)
      (fun x => { x with verify_state := VerifyState.APPROVED }) t, ?_, ?_⟩
    · simp only [mainDispatch, hfind, hdid]
    · exact updateFirst_spec _ _ t s hfind
  · intro s hfind hdid
    simp only [mainDispatch, hfind, hdid]
  · intro hfind
    simp only [mainDispatch, hfind]

/-- C2 witness: on the table holding only the linked PENDING record for
identity u2, `DiscordApproval("u2")` succeeds, flips the record to
APPROVED, replies ApprovalSuccess and sets the dirty flag. -/
theorem C2_witness :
    [rLinked].find? (fun x => x.uuid == "u2") = some rLinked ∧
    rLinked.discord_id = some 42 ∧
    ∃ t', mainDispatch [rLinked] false (Packet.DiscordApproval "u2") none [] 0 =
        Except.ok ⟨t', true, [Packet.ApprovalSuccess], false⟩ ∧
      ∃ i : Nat, [rLinked][i]? = some rLinked ∧
        t'[i]? = some { rLinked with verify_state := VerifyState.APPROVED } ∧
        ∀ j : Nat, j ≠ i → t'[j]? = [rLinked][j]? :=
  ⟨rfl, rfl, (C2_approval [rLinked] false "u2" none [] 0).1 rLinked 42 rfl rfl⟩

/-- C10 witness: a buffer with its write cursor at 123 and a 2-byte string;
`123 + 4 ≤ 128` but `123 + 4 + 2 > 128`, so the call fails yet leaves the
length prefix behind and the cursor at 127. -/
theorem C10_witness :
    ((⟨0, 123, List.replicate BUFFER_SIZE 0⟩ : Buffer).write_cursor + 4 ≤ BUFFER_SIZE) ∧
    (BUFFER_SIZE <
      (⟨0, 123, List.replicate BUFFER_SIZE 0⟩ : Buffer).write_cursor + 4 +
        ([65, 66] : List Nat).length) ∧
    (((⟨0, 123, List.replicate BUFFER_SIZE 0⟩ : Buffer).put_string [65, 66]).2 =
      Except.error "Ran into end of buffer while writing!" ∧
    ((⟨0, 123, List.replicate BUFFER_SIZE 0⟩ : Buffer).put_string [65, 66]).1.write_cursor =
      (⟨0, 123, List.replicate BUFFER_SIZE 0⟩ : Buffer).write_cursor + 4 ∧
    ((⟨0, 123, List.replicate BUFFER_SIZE 0⟩ : Buffer).put_string [65, 66]).1.data =
      writeBytes (⟨0, 123, List.replicate BUFFER_SIZE 0⟩ : Buffer).data 123
        (toBE4 ([65, 66] : List Nat).length) ∧
    ((⟨0, 123, List.replicate BUFFER_SIZE 0⟩ : Buffer).put_string [65, 66]).1 ≠
      (⟨0, 123, List.replicate BUFFER_SIZE 0⟩ : Buffer)) :=
  ⟨by decide, by decide,
   C10_put_string_nonatomic ⟨0, 123, List.replicate BUFFER_SIZE 0⟩ [65, 66]
     (by decide) (by decide)⟩

end CCBot
